import Mathlib

set_option linter.unusedVariables false

/-!
Verification of the WebTest link-library service (src/app.py) against its
specification.  The Python source is shallowly embedded: the in-memory token
map, the log buffer and the library sequence become explicit values threaded
through the handler functions; wall-clock time, the random token and the
formatted timestamp become explicit parameters; the persisted JSON file is
modelled by an abstract parse state (absent / corrupt / parsed).
-/

namespace WebTest

/-- `MAX_LOGS = 1000` from src/app.py. -/
def MAX_LOGS : Nat := 1000

/-- `TOKEN_EXPIRY_HOURS = 24` from src/app.py. -/
def TOKEN_EXPIRY_HOURS : Nat := 24

/-- The token TTL `timedelta(hours=TOKEN_EXPIRY_HOURS)`, measured in seconds. -/
def tokenExpirySeconds : Nat := TOKEN_EXPIRY_HOURS * 3600

/-- Python `dict` lookup (`d.get(k)` / `d[k]`), on an association-list model of
a dict.  Keys in a Python dict are unique, so first-match lookup agrees with
dict semantics. -/
def dictGet {α : Type} (k : String) : List (String × α) → Option α
  | [] => none
  | (k2, v) :: rest => if k = k2 then some v else dictGet k rest

/-- Python `del d[k]`: removes the binding for `k`. -/
def dictDelete {α : Type} (k : String) (m : List (String × α)) : List (String × α) :=
  m.filter (fun p => p.1 ≠ k)

/-- The in-memory `active_tokens` map: token string ↦ absolute expiry time
(seconds). -/
abbrev TokenMap := List (String × Nat)

/-- `is_token_valid(token)` from src/app.py.  `now` is the value of
`datetime.now()` at the call; returns the boolean result together with the
token map after the call (the lazy-expiry deletion is the only mutation). -/
def is_token_valid (now : Nat) (tokens : TokenMap) (token : String) : Bool × TokenMap :=
  match dictGet token tokens with
  | some expiry =>
      if now < expiry then (true, tokens)
      else (false, dictDelete token tokens)
  | none => (false, tokens)

/-- `create_session_token()` from src/app.py.  The cryptographically random
token produced by `generate_token()` is passed in as `newToken`; the expiry is
`now + 24 hours` and the pair is inserted into the map. -/
def create_session_token (now : Nat) (newToken : String) (tokens : TokenMap) :
    String × TokenMap :=
  (newToken, (newToken, now + tokenExpirySeconds) :: tokens)

/-- The log entry string built by `add_log`: `f"[{timestamp}] {message}"`. -/
def log_format (timestamp message : String) : String :=
  "[" ++ timestamp ++ "] " ++ message

/-- `add_log(message)` from src/app.py: prepends a formatted timestamp, appends
to `server_logs`, and pops the front entry when the length exceeds `MAX_LOGS`.
The timestamp string is passed in explicitly. -/
def add_log (timestamp message : String) (logs : List String) : List String :=
  let log_entry := log_format timestamp message
  let logs2 := logs ++ [log_entry]
  if logs2.length > MAX_LOGS then logs2.tail else logs2

/-- A sequence of `add_log` calls, each with its own timestamp and message. -/
def add_logs (logs : List String) (msgs : List (String × String)) : List String :=
  msgs.foldl (fun acc m => add_log m.1 m.2 acc) logs

/-- A library link record as stored in `library_data.json`.  The `pinned` key
may be absent from a record on disk (`toggle_pin` explicitly handles
`'pinned' not in link`), so it is modelled as `Option Bool`, `none` meaning
the key is missing. -/
structure Link where
  name : String
  url : String
  pinned : Option Bool
deriving DecidableEq, Repr

/-- The state of the persisted `library_data.json` file, abstracted to its
parse outcome: the file is absent, or present but not valid JSON, or parses
to a list of records. -/
inductive FileState where
  | absent
  | corrupt (raw : String)
  | parsed (links : List Link)
deriving DecidableEq, Repr

/-- `load_library()` from src/app.py: absent file ↦ `[]`; present but
`json.load` raises `JSONDecodeError` ↦ warning printed and `[]`; otherwise the
parsed list. -/
def load_library : FileState → List Link
  | .absent => []
  | .corrupt _ => []
  | .parsed links => links

/-- `save_library(links)` from src/app.py: overwrites the file with the JSON
serialization of `links`, so the file subsequently parses back to `links`. -/
def save_library (links : List Link) : FileState := .parsed links

/-- Response of a library endpoint: 200 with the full link list, or 400 with
an error message. -/
inductive LibResponse where
  | ok (links : List Link)
  | badRequest (message : String)
deriving DecidableEq, Repr

/-- `add_library_link()` (POST /api/library) from src/app.py.  `name` and
`url` are `data.get(...)` on the request body (`none` = key missing); the
Python truthiness test `if name and url` fails on `None` and on the empty
string.  Returns the response, the new in-memory list and the new file
state. -/
def add_library_link (name url : Option String) (links : List Link) (file : FileState) :
    LibResponse × List Link × FileState :=
  match name, url with
  | some n, some u =>
      if n ≠ "" ∧ u ≠ "" then
        let links2 := links ++ [{ name := n, url := u, pinned := some false }]
        (.ok links2, links2, save_library links2)
      else (.badRequest "Name and URL required", links, file)
  | _, _ => (.badRequest "Name and URL required", links, file)

/-- `delete_library_link(index)` (DELETE /api/library/&lt;index&gt;) from
src/app.py: pops the record at `index` when `0 <= index < len`, otherwise
400. -/
def delete_library_link (index : Nat) (links : List Link) (file : FileState) :
    LibResponse × List Link × FileState :=
  if index < links.length then
    let links2 := links.eraseIdx index
    (.ok links2, links2, save_library links2)
  else (.badRequest "Invalid index", links, file)

/-- `toggle_pin(index)` (POST /api/library/&lt;index&gt;/pin) from src/app.py:
if the record lacks the `pinned` key it is first set to `False`, then the flag
is negated, and the list is persisted; out-of-range gives 400. -/
def toggle_pin (index : Nat) (links : List Link) (file : FileState) :
    LibResponse × List Link × FileState :=
  if h : index < links.length then
    let link := links.get ⟨index, h⟩
    let link1 := if link.pinned = none then { link with pinned := some false } else link
    let link2 := { link1 with pinned := some (!(link1.pinned.getD false)) }
    let links2 := links.set index link2
    (.ok links2, links2, save_library links2)
  else (.badRequest "Invalid index", links, file)

/-- `get_pinned()` (GET /api/pinned) from src/app.py:
`[link for link in library_links if link.get('pinned', False)]`. -/
def get_pinned (links : List Link) : List Link :=
  links.filter (fun link => link.pinned.getD false)

/-- Route-level view of `add_library_link`: the incoming request carries an
(optional) Authorization header and the process holds the `active_tokens`
map, but the handler body in src/app.py reads neither — it only reads the
body fields and the library state.  The wrapper makes both explicit so that
independence can be stated. -/
def add_library_link_route (authHeader : Option String) (tokens : TokenMap)
    (name url : Option String) (links : List Link) (file : FileState) :
    (LibResponse × List Link × FileState) × TokenMap :=
  (add_library_link name url links file, tokens)

/-- Route-level view of `delete_library_link`; as with
`add_library_link_route`, the handler never reads the Authorization header or
the token map. -/
def delete_library_link_route (authHeader : Option String) (tokens : TokenMap)
    (index : Nat) (links : List Link) (file : FileState) :
    (LibResponse × List Link × FileState) × TokenMap :=
  (delete_library_link index links file, tokens)

/-- Route-level view of `toggle_pin`; as with `add_library_link_route`, the
handler never reads the Authorization header or the token map. -/
def toggle_pin_route (authHeader : Option String) (tokens : TokenMap)
    (index : Nat) (links : List Link) (file : FileState) :
    (LibResponse × List Link × FileState) × TokenMap :=
  (toggle_pin index links file, tokens)

/-- Response of POST /api/admin/login: 200 with a token, or 401 with a
message. -/
inductive LoginResponse where
  | success (token : String)
  | unauthorized (message : String)
deriving DecidableEq, Repr

/-- Whether a login response is the success case. -/
def LoginResponse.isSuccess : LoginResponse → Bool
  | .success _ => true
  | .unauthorized _ => false

/-- `admin_login()` (POST /api/admin/login) from src/app.py.  `username` and
`password` are `data.get(...)` on the request body; `admin_data` is the result
of `load_admin()` (`none` when the file is missing or corrupt, otherwise the
parsed JSON object as an association list).  The guard
`if admin_data and username == admin_data.get("username") and password ==
admin_data.get("password")` requires the dict to be truthy (non-empty) and
both submitted values to equal the stored ones; the submitted password is
compared directly, no hash is applied.  On success a session token is
created. -/
def admin_login (username password : Option String)
    (admin_data : Option (List (String × String)))
    (now : Nat) (newToken : String) (tokens : TokenMap) : LoginResponse × TokenMap :=
  match admin_data with
  | some d =>
      if d ≠ [] ∧ username = dictGet "username" d ∧ password = dictGet "password" d then
        let r := create_session_token now newToken tokens
        (.success r.1, r.2)
      else (.unauthorized "Invalid username or password", tokens)
  | none => (.unauthorized "Invalid username or password", tokens)

/-! ### Helper lemmas -/

/-- A successful `dictGet` lookup implies the dict is non-empty (truthy in
Python). -/
theorem dictGet_ne_nil {α : Type} {k : String} {v : α} {d : List (String × α)}
    (h : dictGet k d = some v) : d ≠ [] := by
  intro hd
  subst hd
  simp [dictGet] at h

/-- After `del d[k]`, looking up `k` yields nothing. -/
theorem dictGet_dictDelete {α : Type} (k : String) (m : List (String × α)) :
    dictGet k (dictDelete k m) = none := by
  induction m with
  | nil => rfl
  | cons hd tl ih =>
      rcases hd with ⟨k2, v⟩
      by_cases h : k2 = k
      · subst h
        simpa [dictDelete, List.filter_cons] using ih
      · have hk : ¬ k = k2 := fun hh => h hh.symm
        simpa [dictDelete, List.filter_cons, h, dictGet, hk] using ih

/-- `dictDelete` only removes the binding of the deleted key. -/
theorem dictGet_dictDelete_ne {α : Type} {k k2 : String} (m : List (String × α))
    (h : k2 ≠ k) : dictGet k2 (dictDelete k m) = dictGet k2 m := by
  induction m with
  | nil => rfl
  | cons hd tl ih =>
      rcases hd with ⟨k3, v⟩
      by_cases h3 : k3 = k
      · subst h3
        have : ¬ k2 = k3 := h
        simpa [dictDelete, List.filter_cons, dictGet, this] using ih
      · by_cases h23 : k2 = k3
        · subst h23
          simp [dictDelete, List.filter_cons, h3, dictGet]
        · simpa [dictDelete, List.filter_cons, h3, dictGet, h23] using ih

/-- Closed form of `admin_login` when the credential record loaded. -/
theorem admin_login_some_eq (username password : Option String)
    (d : List (String × String)) (now : Nat) (tok : String) (tokens : TokenMap) :
    admin_login username password (some d) now tok tokens =
      if d ≠ [] ∧ username = dictGet "username" d ∧ password = dictGet "password" d then
        (.success tok, (tok, now + tokenExpirySeconds) :: tokens)
      else
        (.unauthorized "Invalid username or password", tokens) := by
  simp [admin_login, create_session_token]

/-! ### Claims -/

/-- C1: the library mutation endpoints (POST /api/library,
DELETE /api/library/&lt;index&gt;, POST /api/library/&lt;index&gt;/pin) never read the
Authorization header or the token map: the response, the resulting library
list and the persisted file are identical for any two headers (present or
absent, valid or not) and any two token maps, and the token map is returned
unchanged — any caller can mutate the library without authentication. -/
theorem library_mutation_ignores_authorization
    (auth1 auth2 : Option String) (tokens1 tokens2 : TokenMap)
    (name url : Option String) (index : Nat) (links : List Link) (file : FileState) :
    ((add_library_link_route auth1 tokens1 name url links file).1 =
       (add_library_link_route auth2 tokens2 name url links file).1 ∧
     (add_library_link_route auth1 tokens1 name url links file).2 = tokens1) ∧
    ((delete_library_link_route auth1 tokens1 index links file).1 =
       (delete_library_link_route auth2 tokens2 index links file).1 ∧
     (delete_library_link_route auth1 tokens1 index links file).2 = tokens1) ∧
    ((toggle_pin_route auth1 tokens1 index links file).1 =
       (toggle_pin_route auth2 tokens2 index links file).1 ∧
     (toggle_pin_route auth1 tokens1 index links file).2 = tokens1) :=
  ⟨⟨rfl, rfl⟩, ⟨rfl, rfl⟩, ⟨rfl, rfl⟩⟩

/-- C8: `load_library` is a total function; on an absent file it returns the
empty list, and on a file whose contents fail to parse as JSON it returns the
empty list as well, never an error. -/
theorem load_library_total_fallback :
    load_library .absent = [] ∧ ∀ raw : String, load_library (.corrupt raw) = [] :=
  ⟨rfl, fun _ => rfl⟩

/-- C2: with a loaded admin record, a token is issued iff the submitted
username and plaintext password both exactly equal the stored fields (no
hashing is applied to the incoming password: the comparison is syntactic
equality on the submitted string); on success the response carries the fresh
token inserted into the map, and on any mismatch or an absent record the
response is 401 `Invalid username or password` with the state unchanged.  In
particular, when the stored password field is the literal string `"secret"`,
logging in with password `"secret"` succeeds and any other password fails. -/
theorem admin_login_plaintext_exact_match :
    (∀ (u p : String) (d : List (String × String)) (now : Nat) (tok : String)
        (tokens : TokenMap),
      ((admin_login (some u) (some p) (some d) now tok tokens).1.isSuccess = true ↔
        dictGet "username" d = some u ∧ dictGet "password" d = some p) ∧
      (dictGet "username" d = some u ∧ dictGet "password" d = some p →
        admin_login (some u) (some p) (some d) now tok tokens =
          (.success tok, (tok, now + tokenExpirySeconds) :: tokens)) ∧
      (¬ (dictGet "username" d = some u ∧ dictGet "password" d = some p) →
        admin_login (some u) (some p) (some d) now tok tokens =
          (.unauthorized "Invalid username or password", tokens))) ∧
    (∀ (u p : Option String) (now : Nat) (tok : String) (tokens : TokenMap),
      admin_login u p none now tok tokens =
        (.unauthorized "Invalid username or password", tokens)) ∧
    (∀ (u : String) (d : List (String × String)) (now : Nat) (tok : String)
        (tokens : TokenMap),
      dictGet "username" d = some u → dictGet "password" d = some "secret" →
        (admin_login (some u) (some "secret") (some d) now tok tokens).1 = .success tok ∧
        ∀ p : String, p ≠ "secret" →
          admin_login (some u) (some p) (some d) now tok tokens =
            (.unauthorized "Invalid username or password", tokens)) := by
  have key : ∀ (u p : String) (d : List (String × String)) (now : Nat) (tok : String)
      (tokens : TokenMap),
      (dictGet "username" d = some u ∧ dictGet "password" d = some p →
        admin_login (some u) (some p) (some d) now tok tokens =
          (.success tok, (tok, now + tokenExpirySeconds) :: tokens)) ∧
      (¬ (dictGet "username" d = some u ∧ dictGet "password" d = some p) →
        admin_login (some u) (some p) (some d) now tok tokens =
          (.unauthorized "Invalid username or password", tokens)) := by
    intro u p d now tok tokens
    constructor
    · rintro ⟨h1, h2⟩
      rw [admin_login_some_eq, if_pos ⟨dictGet_ne_nil h1, h1.symm, h2.symm⟩]
    · intro hne
      rw [admin_login_some_eq, if_neg]
      rintro ⟨-, h1, h2⟩
      exact hne ⟨h1.symm, h2.symm⟩
  refine ⟨fun u p d now tok tokens => ⟨?_, (key u p d now tok tokens).1,
      (key u p d now tok tokens).2⟩, fun u p now tok tokens => rfl, ?_⟩
  · constructor
    · intro hs
      by_contra hne
      rw [(key u p d now tok tokens).2 hne] at hs
      simp [LoginResponse.isSuccess] at hs
    · intro h
      rw [(key u p d now tok tokens).1 h]
      rfl
  · intro u d now tok tokens h1 h2
    refine ⟨by rw [(key u "secret" d now tok tokens).1 ⟨h1, h2⟩], ?_⟩
    intro p hp
    refine (key u p d now tok tokens).2 ?_
    rintro ⟨-, hpw⟩
    rw [h2] at hpw
    exact hp (Option.some.injEq .. ▸ hpw.symm ▸ rfl)

/-- Witness for C2: with stored record
`{"username": "admin", "password": "secret"}`, logging in as
`admin`/`secret` yields a token and `admin`/`wrong` yields 401. -/
theorem admin_login_plaintext_exact_match_witness :
    (admin_login (some "admin") (some "secret")
        (some [("username", "admin"), ("password", "secret")]) 0 "tok" []).1 =
      .success "tok" ∧
    admin_login (some "admin") (some "wrong")
        (some [("username", "admin"), ("password", "secret")]) 0 "tok" [] =
      (.unauthorized "Invalid username or password", []) := by
  have h := admin_login_plaintext_exact_match
  refine ⟨(h.2.2 "admin" [("username", "admin"), ("password", "secret")] 0 "tok" []
      (by decide) (by decide)).1, ?_⟩
  exact (h.2.2 "admin" [("username", "admin"), ("password", "secret")] 0 "tok" []
      (by decide) (by decide)).2 "wrong" (by decide)

/-- C10: if the admin file parses to a non-empty JSON object lacking both the
`username` and `password` keys, a login request whose body also omits both
fields succeeds and is granted a session token: both sides of each comparison
are `None`. -/
theorem login_succeeds_without_credential_fields
    (d : List (String × String)) (now : Nat) (tok : String) (tokens : TokenMap)
    (hne : d ≠ []) (hu : dictGet "username" d = none) (hp : dictGet "password" d = none) :
    admin_login none none (some d) now tok tokens =
      (.success tok, (tok, now + tokenExpirySeconds) :: tokens) := by
  rw [admin_login_some_eq, if_pos ⟨hne, hu.symm, hp.symm⟩]

/-- Witness for C10: the record `{"color": "blue"}` has neither key, and the
field-less login is granted a token. -/
theorem login_succeeds_without_credential_fields_witness :
    admin_login none none (some [("color", "blue")]) 0 "tok" [] =
      (.success "tok", [("tok", 0 + tokenExpirySeconds)]) :=
  login_succeeds_without_credential_fields [("color", "blue")] 0 "tok" []
    (by decide) (by decide) (by decide)

/-- C3: `is_token_valid` returns true iff the token is present with an expiry
strictly in the future; a present-but-expired token is deleted as a side
effect (absent from the map after the check) and rejected; an absent token is
rejected with no state change.  A token just created validates as true at the
moment of creation, and validates as false (and is then removed) at any time
from 24 hours after creation on. -/
theorem is_token_valid_lifecycle :
    (∀ (now : Nat) (tokens : TokenMap) (token : String),
      (is_token_valid now tokens token).1 = true ↔
        ∃ e, dictGet token tokens = some e ∧ now < e) ∧
    (∀ (now : Nat) (tokens : TokenMap) (token : String) (e : Nat),
      dictGet token tokens = some e → ¬ now < e →
        (is_token_valid now tokens token).1 = false ∧
        dictGet token (is_token_valid now tokens token).2 = none) ∧
    (∀ (now : Nat) (tokens : TokenMap) (token : String),
      dictGet token tokens = none → is_token_valid now tokens token = (false, tokens)) ∧
    (∀ (now : Nat) (tok : String) (tokens : TokenMap),
      (is_token_valid now (create_session_token now tok tokens).2
        (create_session_token now tok tokens).1).1 = true) ∧
    (∀ (now later : Nat) (tok : String) (tokens : TokenMap),
      now + tokenExpirySeconds ≤ later →
        (is_token_valid later (create_session_token now tok tokens).2 tok).1 = false ∧
        dictGet tok (is_token_valid later (create_session_token now tok tokens).2 tok).2 =
          none) := by
  have hget : ∀ (now : Nat) (tok : String) (tokens : TokenMap),
      dictGet tok (create_session_token now tok tokens).2 = some (now + tokenExpirySeconds) := by
    intro now tok tokens
    simp [create_session_token, dictGet]
  have hexp : ∀ (now : Nat) (tokens : TokenMap) (token : String) (e : Nat),
      dictGet token tokens = some e → ¬ now < e →
        (is_token_valid now tokens token).1 = false ∧
        dictGet token (is_token_valid now tokens token).2 = none := by
    intro now tokens token e he hlt
    simp [is_token_valid, he, hlt, dictGet_dictDelete]
  refine ⟨?_, hexp, ?_, ?_, ?_⟩
  · intro now tokens token
    constructor
    · intro h
      rcases hd : dictGet token tokens with - | e
      · simp [is_token_valid, hd] at h
      · refine ⟨e, rfl, ?_⟩
        by_contra hlt
        simp [is_token_valid, hd, hlt] at h
    · rintro ⟨e, he, hlt⟩
      simp [is_token_valid, he, hlt]
  · intro now tokens token h
    simp [is_token_valid, h]
  · intro now tok tokens
    have : now < now + tokenExpirySeconds := by
      simp [tokenExpirySeconds, TOKEN_EXPIRY_HOURS]
    simp [is_token_valid, create_session_token, dictGet, this]
  · intro now later tok tokens hle
    exact hexp later _ tok (now + tokenExpirySeconds) (hget now tok tokens)
      (by omega)

/-- Witness for C3: a token created at time 0 is valid at time 0, invalid at
time 1 (stale stored expiry 0 < 1), deleted after an expired check, and
unknown tokens are rejected. -/
theorem is_token_valid_lifecycle_witness :
    ((is_token_valid 1 [("t", 1)] "t").1 = false ∧
      dictGet "t" (is_token_valid 1 [("t", 1)] "t").2 = none) ∧
    is_token_valid 0 [] "nope" = (false, []) ∧
    (is_token_valid 0 (create_session_token 0 "t" []).2
      (create_session_token 0 "t" []).1).1 = true ∧
    ((is_token_valid tokenExpirySeconds (create_session_token 0 "t" []).2 "t").1 = false ∧
      dictGet "t" (is_token_valid tokenExpirySeconds
        (create_session_token 0 "t" []).2 "t").2 = none) :=
  ⟨is_token_valid_lifecycle.2.1 1 [("t", 1)] "t" 1 (by decide) (by decide),
   is_token_valid_lifecycle.2.2.1 0 [] "nope" (by decide),
   is_token_valid_lifecycle.2.2.2.1 0 "t" [],
   is_token_valid_lifecycle.2.2.2.2 0 tokenExpirySeconds "t" [] (by decide)⟩

/-- Closed form for a run of `add_log` calls starting from a buffer within the
bound: the result is the concatenation, with the overflow dropped from the
front. -/
theorem add_logs_eq_drop (msgs : List (String × String)) (logs : List String)
    (h : logs.length ≤ MAX_LOGS) :
    add_logs logs msgs =
      (logs ++ msgs.map (fun m => log_format m.1 m.2)).drop
        (logs.length + msgs.length - MAX_LOGS) := by
  induction msgs generalizing logs with
  | nil =>
      have h0 : logs.length - MAX_LOGS = 0 := by omega
      simp [add_logs, h0]
  | cons m ms ih =>
      show add_logs (add_log m.1 m.2 logs) ms = _
      by_cases hfull : logs.length < MAX_LOGS
      · have ha : add_log m.1 m.2 logs = logs ++ [log_format m.1 m.2] := by
          simp only [add_log]
          rw [if_neg (by simp; omega)]
        rw [ha, ih _ (by simp; omega)]
        have hc : (logs ++ [log_format m.1 m.2]).length + ms.length - MAX_LOGS =
            logs.length + (m :: ms).length - MAX_LOGS := by
          simp
          omega
        rw [hc]
        simp
      · have hlen : logs.length = MAX_LOGS := by omega
        have ha : add_log m.1 m.2 logs = (logs ++ [log_format m.1 m.2]).tail := by
          simp only [add_log]
          rw [if_pos (by simp; omega)]
        rw [ha, ih _ (by simp [List.length_tail]; omega)]
        rw [← List.drop_one,
          ← List.drop_append_of_le_length (by simp : 1 ≤ (logs ++ [log_format m.1 m.2]).length),
          List.drop_drop]
        have hc : 1 + ((List.drop 1 (logs ++ [log_format m.1 m.2])).length + ms.length
              - MAX_LOGS) = logs.length + (m :: ms).length - MAX_LOGS := by
          simp
          omega
        rw [hc]
        simp

/-- C7: starting from the empty buffer, after any run of `add_log` calls the
buffer holds at most `MAX_LOGS = 1000` entries; appending 1001 messages leaves
exactly the last 1000 formatted entries — the oldest (first-appended) entry is
evicted from the front and the insertion order of the rest is preserved. -/
theorem server_logs_bounded_fifo (msgs : List (String × String)) :
    (add_logs [] msgs).length ≤ MAX_LOGS ∧
    (msgs.length = MAX_LOGS + 1 →
      add_logs [] msgs = (msgs.map (fun m => log_format m.1 m.2)).drop 1) := by
  have h := add_logs_eq_drop msgs [] (by simp)
  simp only [List.nil_append, List.length_nil, Nat.zero_add] at h
  constructor
  · rw [h, List.length_drop, List.length_map]
    omega
  · intro h1001
    rw [h]
    have hc : msgs.length - MAX_LOGS = 1 := by omega
    rw [hc]

/-- Witness for C7: 1001 identical append calls leave 1000 entries, the tail
of the formatted message list. -/
theorem server_logs_bounded_fifo_witness :
    (add_logs [] (List.replicate 1001 ("t", "m"))).length ≤ MAX_LOGS ∧
    add_logs [] (List.replicate 1001 ("t", "m")) =
      ((List.replicate 1001 ("t", "m")).map (fun m => log_format m.1 m.2)).drop 1 :=
  ⟨(server_logs_bounded_fifo (List.replicate 1001 ("t", "m"))).1,
   (server_logs_bounded_fifo (List.replicate 1001 ("t", "m"))).2
     (by rw [List.length_replicate]; rfl)⟩

/-- C4: for non-empty `name` and `url`, `add_library_link` succeeds, appends
`{name, url, pinned: false}`, and re-loading the persisted file yields the
new list, whose last element is exactly that record; a missing or empty
`name` or `url` yields the 400 validation error and leaves both the in-memory
list and the file unchanged. -/
theorem add_library_link_appends_and_validates :
    (∀ (n u : String) (links : List Link) (file : FileState), n ≠ "" → u ≠ "" →
      add_library_link (some n) (some u) links file =
        (.ok (links ++ [⟨n, u, some false⟩]), links ++ [⟨n, u, some false⟩],
          save_library (links ++ [⟨n, u, some false⟩])) ∧
      load_library (add_library_link (some n) (some u) links file).2.2 =
        links ++ [⟨n, u, some false⟩] ∧
      (load_library (add_library_link (some n) (some u) links file).2.2).getLast? =
        some ⟨n, u, some false⟩) ∧
    (∀ (name url : Option String) (links : List Link) (file : FileState),
      name = none ∨ name = some "" ∨ url = none ∨ url = some "" →
      add_library_link name url links file =
        (.badRequest "Name and URL required", links, file)) := by
  constructor
  · intro n u links file hn hu
    have he : add_library_link (some n) (some u) links file =
        (.ok (links ++ [⟨n, u, some false⟩]), links ++ [⟨n, u, some false⟩],
          save_library (links ++ [⟨n, u, some false⟩])) := by
      simp [add_library_link, hn, hu]
    refine ⟨he, by rw [he]; rfl, ?_⟩
    rw [he]
    exact List.getLast?_concat _
  · intro name url links file hbad
    rcases hbad with rfl | rfl | rfl | rfl
    · cases url <;> rfl
    · cases url with
      | none => rfl
      | some u => simp [add_library_link]
    · cases name <;> rfl
    · cases name with
      | none => rfl
      | some n => simp [add_library_link]

/-- Witness for C4: adding `{"name": "Wiki", "url": "http://wiki"}` to the
empty library, and a body with both fields missing. -/
theorem add_library_link_appends_and_validates_witness :
    (add_library_link (some "Wiki") (some "http://wiki") [] .absent =
        (.ok [⟨"Wiki", "http://wiki", some false⟩], [⟨"Wiki", "http://wiki", some false⟩],
          save_library [⟨"Wiki", "http://wiki", some false⟩]) ∧
      load_library (add_library_link (some "Wiki") (some "http://wiki") [] .absent).2.2 =
        [⟨"Wiki", "http://wiki", some false⟩] ∧
      (load_library
          (add_library_link (some "Wiki") (some "http://wiki") [] .absent).2.2).getLast? =
        some ⟨"Wiki", "http://wiki", some false⟩) ∧
    add_library_link none none [] .absent =
      (.badRequest "Name and URL required", [], .absent) := by
  refine ⟨?_, add_library_link_appends_and_validates.2 none none [] .absent (Or.inl rfl)⟩
  have h := add_library_link_appends_and_validates.1 "Wiki" "http://wiki" [] .absent
    (by decide) (by decide)
  simpa using h

/-- The record produced by one `toggle_pin` step on a record: a missing
`pinned` key is first materialized as `False`, and the flag is then negated,
so the result always carries a present flag. -/
def toggledLink (link : Link) : Link :=
  ⟨link.name, link.url, some (!(link.pinned.getD false))⟩

/-- Closed form of `toggle_pin` on an in-bounds index. -/
theorem toggle_pin_eq (i : Nat) (links : List Link) (file : FileState)
    (h : i < links.length) :
    toggle_pin i links file =
      (.ok (links.set i (toggledLink (links.get ⟨i, h⟩))),
       links.set i (toggledLink (links.get ⟨i, h⟩)),
       save_library (links.set i (toggledLink (links.get ⟨i, h⟩)))) := by
  simp only [toggle_pin, dif_pos h]
  rcases hp : links[i].pinned with - | b
  · simp [toggledLink, hp]
  · simp [toggledLink, hp]

/-- C5: applying `toggle_pin` twice at an in-bounds index `i` restores the
original pinned value of the record at `i` — the record keeps its name and
url and its effective flag value `pinned.getD false`; when the record already
carried the flag the whole list (and hence the record) is restored exactly —
and every other position of the sequence is left unchanged. -/
theorem toggle_pin_involutive (links : List Link) (i : Nat) (file file2 : FileState)
    (h : i < links.length) :
    (toggle_pin i (toggle_pin i links file).2.1 file2).2.1.length = links.length ∧
    (∀ r : Link, links[i]? = some r →
      (toggle_pin i (toggle_pin i links file).2.1 file2).2.1[i]? =
        some ⟨r.name, r.url, some (r.pinned.getD false)⟩ ∧
      ∀ b : Bool, r.pinned = some b →
        (toggle_pin i (toggle_pin i links file).2.1 file2).2.1 = links) ∧
    (∀ j : Nat, j ≠ i →
      (toggle_pin i (toggle_pin i links file).2.1 file2).2.1[j]? = links[j]?) := by
  have h1 : (toggle_pin i links file).2.1 = links.set i (toggledLink (links.get ⟨i, h⟩)) := by
    rw [toggle_pin_eq i links file h]
  have hlen2 : i < (links.set i (toggledLink (links.get ⟨i, h⟩))).length := by
    simpa using h
  have hget2 : (links.set i (toggledLink (links.get ⟨i, h⟩))).get ⟨i, hlen2⟩ =
      toggledLink (links.get ⟨i, h⟩) := by
    simp
  have h2 : (toggle_pin i (toggle_pin i links file).2.1 file2).2.1 =
      links.set i (toggledLink (toggledLink (links.get ⟨i, h⟩))) := by
    rw [h1, toggle_pin_eq i _ file2 hlen2, hget2]
    simp [List.set_set]
  have htt : toggledLink (toggledLink (links.get ⟨i, h⟩)) =
      ⟨(links.get ⟨i, h⟩).name, (links.get ⟨i, h⟩).url,
        some ((links.get ⟨i, h⟩).pinned.getD false)⟩ := by
    simp [toggledLink]
  refine ⟨?_, ?_, ?_⟩
  · rw [h2]
    simp
  · intro r hr
    have hr2 : r = links.get ⟨i, h⟩ := by
      rw [List.get_eq_getElem] at *
      rw [List.getElem?_eq_getElem h] at hr
      exact (Option.some.injEq .. ▸ hr).symm
    constructor
    · rw [h2, htt, List.getElem?_set_self (by simpa using h), hr2]
    · intro b hb
      have hrr : (⟨r.name, r.url, some (r.pinned.getD false)⟩ : Link) = r := by
        rcases r with ⟨nm, ur, p⟩
        simp only at hb
        subst hb
        rfl
      rw [h2, htt, ← hr2, hrr]
      refine List.ext_getElem? fun n => ?_
      by_cases hn : n = i
      · subst hn
        rw [List.getElem?_set_self (by simpa using h), List.getElem?_eq_getElem h, hr2]
        rfl
      · exact List.getElem?_set_ne (fun hh => hn hh.symm)
  · intro j hj
    rw [h2]
    exact List.getElem?_set_ne (fun hh => hj hh.symm)

/-- Witness for C5: toggling index 0 of a one-record pinned library twice
restores the library exactly. -/
theorem toggle_pin_involutive_witness :
    (toggle_pin 0 (toggle_pin 0 [Link.mk "a" "u" (some true)] .absent).2.1 .absent).2.1 =
      [Link.mk "a" "u" (some true)] :=
  ((toggle_pin_involutive [Link.mk "a" "u" (some true)] 0 .absent .absent
      (by decide)).2.1 (Link.mk "a" "u" (some true)) rfl).2 true rfl

/-- C9: `toggle_pin` treats a missing `pinned` flag as false before flipping,
so toggling such a record always yields `pinned = true`; `get_pinned` treats
records lacking the flag as unpinned and excludes them, returning exactly the
subsequence of records with `pinned == true` in their original relative
order. -/
theorem toggle_pin_default_and_get_pinned :
    (∀ (links : List Link) (i : Nat) (file : FileState) (h : i < links.length),
      (links.get ⟨i, h⟩).pinned = none →
        (toggle_pin i links file).2.1[i]? =
          some ⟨(links.get ⟨i, h⟩).name, (links.get ⟨i, h⟩).url, some true⟩) ∧
    (∀ links : List Link,
      get_pinned links = links.filter (fun l => decide (l.pinned = some true)) ∧
      (get_pinned links).Sublist links ∧
      ∀ l : Link, l.pinned = none → l ∉ get_pinned links) := by
  constructor
  · intro links i file h hp
    rw [List.get_eq_getElem] at hp
    rw [toggle_pin_eq i links file h]
    show (links.set i (toggledLink (links.get ⟨i, h⟩)))[i]? = _
    rw [List.getElem?_set_self (by simpa using h)]
    simp [toggledLink, hp]
  · intro links
    have hfc : get_pinned links = links.filter (fun l => decide (l.pinned = some true)) := by
      refine List.filter_congr fun l hl => ?_
      rcases hp : l.pinned with - | b
      · simp [hp]
      · cases b <;> simp [hp]
    refine ⟨hfc, List.filter_sublist links, ?_⟩
    intro l hp hmem
    simp only [get_pinned, List.mem_filter] at hmem
    rw [hp] at hmem
    simp at hmem

/-- Witness for C9: toggling a record with no `pinned` key pins it, and
`get_pinned` on a mixed library keeps exactly the `pinned = true` records. -/
theorem toggle_pin_default_and_get_pinned_witness :
    (toggle_pin 0 [Link.mk "a" "u" none] .absent).2.1[0]? =
      some (Link.mk "a" "u" (some true)) ∧
    get_pinned [Link.mk "a" "u" none, Link.mk "b" "v" (some true),
        Link.mk "c" "w" (some false)] =
      [Link.mk "b" "v" (some true), Link.mk "c" "w" (some false)].filter
        (fun l => decide (l.pinned = some true)) ∧
    Link.mk "a" "u" none ∉
      get_pinned [Link.mk "a" "u" none, Link.mk "b" "v" (some true),
        Link.mk "c" "w" (some false)] := by
  refine ⟨toggle_pin_default_and_get_pinned.1 [Link.mk "a" "u" none] 0 .absent
    (by decide) rfl, ?_, ?_⟩
  · have h := (toggle_pin_default_and_get_pinned.2 [Link.mk "a" "u" none,
      Link.mk "b" "v" (some true), Link.mk "c" "w" (some false)]).1
    rw [h]
    decide
  · exact (toggle_pin_default_and_get_pinned.2 [Link.mk "a" "u" none,
      Link.mk "b" "v" (some true), Link.mk "c" "w" (some false)]).2.2
      (Link.mk "a" "u" none) rfl

/-- C6 counterexample: in the two-element library holding two equal pinned
records, deleting index 0 leaves the duplicate, and `get_pinned` afterwards
still contains a record equal to the removed one — so "`removeAt(i)` followed
by `listPinned()` never returns the removed record" fails as stated. -/
theorem removed_record_reappears_in_pinned :
    [Link.mk "a" "u" (some true), Link.mk "a" "u" (some true)][0]? =
      some (Link.mk "a" "u" (some true)) ∧
    Link.mk "a" "u" (some true) ∈
      get_pinned ((delete_library_link 0
        [Link.mk "a" "u" (some true), Link.mk "a" "u" (some true)] .absent).2.1) := by
  decide

/-- C6 (amended): when the record at index `i` occurs exactly once in the
library (no other record equal to it), `get_pinned` after
`delete_library_link i` never contains it. -/
theorem removeAt_unique_record_not_in_pinned (links : List Link) (i : Nat)
    (file : FileState) (r : Link) (hr : links[i]? = some r)
    (hcount : links.count r = 1) :
    r ∉ get_pinned ((delete_library_link i links file).2.1) := by
  have h : i < links.length := by
    by_contra hge
    rw [List.getElem?_eq_none (by omega)] at hr
    exact Option.noConfusion hr
  have hi : links[i] = r := by
    rw [List.getElem?_eq_getElem h] at hr
    exact Option.some.inj hr
  have hd : (delete_library_link i links file).2.1 = links.eraseIdx i := by
    simp [delete_library_link, h]
  rw [hd]
  intro hmem
  have hmem2 : r ∈ links.eraseIdx i := by
    simp only [get_pinned, List.mem_filter] at hmem
    exact hmem.1
  have hfull : links.take i ++ r :: links.drop (i + 1) = links := by
    rw [← hi, List.getElem_cons_drop links i h, List.take_append_drop]
  have hcount2 : (links.take i).count r + (links.drop (i + 1)).count r = 0 := by
    have := congrArg (List.count r) hfull
    rw [List.count_append, List.count_cons_self, hcount] at this
    omega
  have hzero : (links.eraseIdx i).count r = 0 := by
    rw [List.eraseIdx_eq_take_drop_succ, List.count_append]
    omega
  exact List.count_eq_zero.1 hzero hmem2

/-- Witness for the amended C6: removing the only pinned record named `a`
from a two-record library leaves a pinned list without it. -/
theorem removeAt_unique_record_not_in_pinned_witness :
    Link.mk "a" "u" (some true) ∉
      get_pinned ((delete_library_link 0
        [Link.mk "a" "u" (some true), Link.mk "b" "v" (some true)] .absent).2.1) :=
  removeAt_unique_record_not_in_pinned
    [Link.mk "a" "u" (some true), Link.mk "b" "v" (some true)] 0 .absent
    (Link.mk "a" "u" (some true)) (by decide) (by decide)

end WebTest
